import Mathlib

/-!
Verification development for the AI image enhancer core of `src/main.py`
(class `AIImageEnhancer` and the `/convert` route glue).

The pixel-statistics layer is embedded exactly over `ℚ`; two library
quantities that are irrational square roots (PIL `ImageStat.Stat.stddev`
per band, `np.std` per tile) are passed as function parameters and, where a
claim needs their value, constrained by their defining equation
`stddev ^ 2 = variance`, with the variance computed exactly from pixels.
`cv2.Laplacian(gray, CV_64F).var()` appears only through the clamps applied
to it, so it is passed as an unconstrained parameter `lapVar`.
Exception control flow (`try`/`except`) is embedded by explicit Boolean
fault flags marking each `except` site.
-/

/-- Clamp helper for Python's `max(lo, min(hi, x))` pattern. -/
def clampQ (lo hi x : ℚ) : ℚ := max lo (min hi x)

/-- Decoded raster as the analysis code sees it through `np.array(image)` /
`ImageStat.Stat(image)`: height, width, number of bands, and the 8-bit
sample at row `y`, column `x`, band `c`. -/
structure Img where
  h : ℕ
  w : ℕ
  nchan : ℕ
  px : ℕ → ℕ → ℕ → ℕ

/-- Mean of band `c` over the whole image (PIL `ImageStat.Stat(image).mean[c]`).
Division by zero in `ℚ` yields 0, and the degenerate cases are guarded
separately in `rawBrightness`/`rawContrast` below. -/
def chanMean (img : Img) (c : ℕ) : ℚ :=
  (∑ y ∈ Finset.range img.h, ∑ x ∈ Finset.range img.w, (img.px y x c : ℚ)) /
    ((img.h * img.w : ℕ) : ℚ)

/-- Mean of squared samples of band `c`. -/
def chanM2 (img : Img) (c : ℕ) : ℚ :=
  (∑ y ∈ Finset.range img.h, ∑ x ∈ Finset.range img.w, (img.px y x c : ℚ) ^ 2) /
    ((img.h * img.w : ℕ) : ℚ)

/-- Population variance of band `c`; PIL's per-band `stddev` is its square
root, which theorems constrain via `sd c ^ 2 = chanVar img c`. -/
def chanVar (img : Img) (c : ℕ) : ℚ :=
  chanM2 img c - chanMean img c ^ 2

/-- `brightness_raw = float(np.mean(stat.mean)) if stat.mean else 128.0`,
with the surrounding `except (TypeError, ValueError, ZeroDivisionError)`
branch that fires when the statistics are undefined (no bands, or an empty
image making PIL's per-band mean divide by zero) folded into the guard. -/
def rawBrightness (img : Img) : ℚ :=
  if img.nchan = 0 ∨ img.h * img.w = 0 then 128
  else (∑ c ∈ Finset.range img.nchan, chanMean img c) / (img.nchan : ℚ)

/-- `contrast_raw = float(np.mean(stat.stddev)) if stat.stddev else 50.0`,
same guard as `rawBrightness`; `sd c` stands for `stat.stddev[c]`. -/
def rawContrast (img : Img) (sd : ℕ → ℚ) : ℚ :=
  if img.nchan = 0 ∨ img.h * img.w = 0 then 50
  else (∑ c ∈ Finset.range img.nchan, sd c) / (img.nchan : ℚ)

/-- Keys of the Python `analysis` dict built by `analyze_image_quality`. -/
inductive FieldKey where
  | brightness
  | contrast
  | brightness_raw
  | contrast_raw
  | is_dark
  | is_low_contrast
  | needs_sharpening
  | needs_noise_reduction
  | sharpness_score
  | noise_level
deriving DecidableEq

/-- Values stored in the `analysis` dict: floats/ints (as `ℚ`) or booleans. -/
inductive FieldVal where
  | num (q : ℚ)
  | bool (b : Bool)
deriving DecidableEq

/-- A Python dict of metrics, kept as an ordered key/value list so that a
dict literal that omits keys is represented faithfully. -/
abbrev AnalysisRec := List (FieldKey × FieldVal)

/-- Dict read access. -/
def lookupField (r : AnalysisRec) (k : FieldKey) : Option FieldVal :=
  (r.find? (fun p => decide (p.1 = k))).map (fun p => p.2)

/-- Dict assignment `r[k] = v` for a key already present: replaces the value
in place, keeping insertion order. -/
def setField (r : AnalysisRec) (k : FieldKey) (v : FieldVal) : AnalysisRec :=
  r.map (fun p => if p.1 = k then (k, v) else p)

/-- `step = max(20, min(h//10, w//10))` from the noise scan. -/
def step (h w : ℕ) : ℕ := max 20 (min (h / 10) (w / 10))

/-- Python `range(0, stop, stride)` for `stride > 0`: the multiples of
`stride` strictly below `stop`. -/
def pyRange (stop stride : ℕ) : List ℕ :=
  (List.range ((stop + stride - 1) / stride)).map (fun k => k * stride)

/-- `gray[i:i+s, j:j+s].size` for an `h × w` plane: numpy slicing clips at
the array bounds. -/
def regionSize (h w s i j : ℕ) : ℕ :=
  (min (i + s) h - i) * (min (j + s) w - j)

/-- The tile origins whose standard deviations enter the noise estimate:
the double loop `for i in range(0, h-step, step): for j in range(0, w-step,
step):` together with the `if region.size > 0` guard. -/
def noiseTiles (h w : ℕ) : List (ℕ × ℕ) :=
  ((pyRange (h - step h w) (step h w)).flatMap
      (fun i => (pyRange (w - step h w) (step h w)).map (fun j => (i, j)))).filter
    (fun p => decide (0 < regionSize h w (step h w) p.1 p.2))

/-- `AIImageEnhancer.analyze_image_quality`.  Parameters beyond the image:
`sd c` models `ImageStat.Stat(image).stddev[c]`; `lapVar` models
`float(cv2.Laplacian(gray, cv2.CV_64F).var())`; `tileSd i j` models
`float(np.std(gray[i:i+step, j:j+step]))`; `cvFail` marks the
`except Exception as cv_error` branch of the grayscale/sharpness/noise
block (it also covers the structural failure for 2-band images, whose
3-dimensional array cannot be unpacked as `h, w = gray.shape`); `topFail`
marks the outermost `except Exception` branch. -/
def analyze_image_quality (img : Img) (sd : ℕ → ℚ) (lapVar : ℚ)
    (tileSd : ℕ → ℕ → ℚ) (cvFail topFail : Bool) : AnalysisRec :=
  if topFail then
    [(.brightness, .num 0.5),
     (.contrast, .num 0.5),
     (.brightness_raw, .num 128),
     (.contrast_raw, .num 50),
     (.is_dark, .bool false),
     (.is_low_contrast, .bool true),
     (.needs_sharpening, .bool true),
     (.needs_noise_reduction, .bool false),
     (.sharpness_score, .num 50),
     (.noise_level, .num 10)]
  else
    let brightness_raw := rawBrightness img
    let contrast_raw := rawContrast img sd
    let analysis : AnalysisRec := [
      (.brightness, .num (clampQ 0 1 (brightness_raw / 255))),
      (.contrast, .num (clampQ 0 1 (contrast_raw / 255))),
      (.brightness_raw, .num brightness_raw),
      (.contrast_raw, .num contrast_raw),
      (.is_dark, .bool (decide (brightness_raw < 100))),
      (.is_low_contrast, .bool (decide (contrast_raw < 40))),
      (.needs_sharpening, .bool false),
      (.needs_noise_reduction, .bool false),
      (.sharpness_score, .num 100),
      (.noise_level, .num 10)]
    if cvFail then
      setField (setField (setField (setField analysis
        .needs_sharpening (.bool true))
        .needs_noise_reduction (.bool false))
        .sharpness_score (.num 50))
        .noise_level (.num 10)
    else
      let a1 := setField (setField analysis
        .needs_sharpening (.bool (decide (lapVar < 100))))
        .sharpness_score (.num (clampQ 0 1000 lapVar))
      let noise_regions := (noiseTiles img.h img.w).map (fun p => tileSd p.1 p.2)
      if noise_regions = [] then a1
      else
        let avg_noise := noise_regions.sum / (noise_regions.length : ℚ)
        setField (setField a1
          .needs_noise_reduction (.bool (decide (avg_noise > 25))))
          .noise_level (.num (clampQ 0 100 avg_noise))

/-- The `safe_analysis` dict literal of `auto_enhance_image`'s fallback
branch (lines 242–249): note it has only six keys. -/
def safe_analysis : AnalysisRec :=
  [(.brightness, .num 0.5),
   (.contrast, .num 0.5),
   (.brightness_raw, .num 128),
   (.contrast_raw, .num 50),
   (.sharpness_score, .num 50),
   (.noise_level, .num 10)]

/-- Boolean dict read `analysis[k]` (the keys read by `auto_enhance_image`
are always present in `analyze_image_quality`'s output). -/
def getB (r : AnalysisRec) (k : FieldKey) : Bool :=
  match lookupField r k with
  | some (.bool b) => b
  | _ => false

/-- Numeric dict read `analysis[k]`. -/
def getQ (r : AnalysisRec) (k : FieldKey) : ℚ :=
  match lookupField r k with
  | some (.num q) => q
  | _ => 0

/-- `AIImageEnhancer.auto_enhance_image`, restricted to the data the claims
concern: the ordered `applied_enhancements` label list and the `analysis`
record of the returned triple (the enhanced pixel buffer itself is not
modelled; the `ImageEnhance` factors only transform pixels and never touch
the labels).  `bodyFail` marks the outer `except Exception` (decode failure
or a fault in a PIL enhancement step); `colorFail` the `except` of the
color-enhancement `try`; `noiseFilterFail` a fault in the OpenCV block
before the `"Auto Noise Reduction"` append (a fault after the append, in
the conversion back to PIL, leaves the labels unchanged, so it needs no
separate flag); `fallbackOk` whether re-opening the original bytes in the
fallback branch succeeds. -/
def auto_enhance_image (img : Img) (sd : ℕ → ℚ) (lapVar : ℚ)
    (tileSd : ℕ → ℕ → ℚ) (cvFail topFail : Bool)
    (bodyFail colorFail noiseFilterFail fallbackOk : Bool) :
    Except String (List String × AnalysisRec) :=
  if bodyFail then
    if fallbackOk then
      .ok (["Enhancement failed - returned original"], safe_analysis)
    else
      .error "Failed to process image"
  else
    let analysis := analyze_image_quality img sd lapVar tileSd cvFail topFail
    let l1 : List String :=
      if getB analysis .is_dark ∨ getQ analysis .brightness < 0.4 then
        ["Auto Brightness Boost"] else []
    let l2 := l1 ++
      (if getB analysis .is_low_contrast ∨ getQ analysis .contrast < 0.3 then
        ["Auto Contrast Enhancement"] else [])
    let l3 := l2 ++
      (if getB analysis .needs_sharpening ∨ getQ analysis .sharpness_score < 100 then
        ["Auto Sharpening"] else [])
    let l4 := l3 ++ (if colorFail then [] else ["Auto Color Enhancement"])
    let l5 := l4 ++
      (if getB analysis .needs_noise_reduction ∧ noiseFilterFail = false then
        ["Auto Noise Reduction"] else [])
    if l5 = [] then .ok (["Default Quality Boost"], analysis)
    else .ok (l5, analysis)

/-- The label list `l5` after the five rule steps of `auto_enhance_image`
(definitionally equal to its let-chain), named so intermediate facts about
the labels can be stated. -/
def ruleLabels (a : AnalysisRec) (colorFail noiseFilterFail : Bool) : List String :=
  ((((if getB a .is_dark ∨ getQ a .brightness < 0.4 then
        ["Auto Brightness Boost"] else []) ++
     (if getB a .is_low_contrast ∨ getQ a .contrast < 0.3 then
        ["Auto Contrast Enhancement"] else [])) ++
    (if getB a .needs_sharpening ∨ getQ a .sharpness_score < 100 then
        ["Auto Sharpening"] else [])) ++
   (if colorFail then [] else ["Auto Color Enhancement"])) ++
  (if getB a .needs_noise_reduction ∧ noiseFilterFail = false then
      ["Auto Noise Reduction"] else [])

/-- ASCII uppercase of a character, for Python's `str.upper()`. -/
def upChar (c : Char) : Char :=
  if c.isLower then Char.ofNat (c.toNat - 32) else c

/-- Python `s.upper()` as the code applies it to format names (which are
ASCII). -/
def pyUpper (s : String) : String := ⟨s.data.map upChar⟩

/-- PIL color modes relevant to `convert_image_format`. -/
inductive PMode where
  | RGB
  | RGBA
  | LA
  | L
  | P
deriving DecidableEq

/-- A PIL image at the mode level: per-pixel channel samples (`px y x c`;
for `LA` channel 1 is alpha, for `RGBA` channel 3 is alpha) and, for `P`
images, the palette lookup `pal index c` giving the RGBA sample of a
palette entry (channel 3 being the alpha from the transparency info). -/
structure PImg where
  h : ℕ
  w : ℕ
  mode : PMode
  px : ℕ → ℕ → ℕ → ℕ
  pal : ℕ → ℕ → ℕ

/-- The 8-bit blend PIL's `paste` performs under an `L`-mode mask `m`:
`(bg * (255 - m) + src * m) / 255`. -/
def blend (bg src m : ℕ) : ℕ := (bg * (255 - m) + src * m) / 255

/-- `image.convert('RGBA')`. -/
def toRGBA (img : PImg) : PImg :=
  match img.mode with
  | .RGBA => img
  | .RGB => { img with mode := .RGBA, px := fun y x c => if c = 3 then 255 else img.px y x c }
  | .LA => { img with mode := .RGBA, px := fun y x c => if c = 3 then img.px y x 1 else img.px y x 0 }
  | .L => { img with mode := .RGBA, px := fun y x c => if c = 3 then 255 else img.px y x 0 }
  | .P => { img with mode := .RGBA, px := fun y x c => img.pal (img.px y x 0) c }

/-- `background.paste(src, mask=src.split()[-1])` for an RGBA `src` onto an
all-white RGB background of the same size: each channel is blended against
255 by the alpha band. -/
def pasteMaskWhite (src : PImg) : PImg :=
  { h := src.h, w := src.w, mode := .RGB,
    px := fun y x c => blend 255 (src.px y x c) (src.px y x 3),
    pal := fun _ _ => 0 }

/-- `background.paste(src)` with no mask onto the white RGB background:
the source is converted to the background's RGB mode (for `LA` this drops
alpha and replicates the luma band) and overwrites the background. -/
def pasteOpaqueWhite (src : PImg) : PImg :=
  { h := src.h, w := src.w, mode := .RGB,
    px := fun y x c => if src.mode = PMode.LA then src.px y x 0 else src.px y x c,
    pal := fun _ _ => 0 }

/-- The transparency-handling prologue of `convert_image_format` (lines
257–263): for a JPEG target and mode `RGBA`/`LA`/`P`, build a white RGB
background, convert `P` to `RGBA` first, and paste with the alpha band as
mask only when the (possibly converted) image is `RGBA`. -/
def jpegPrepImage (target_format : String) (img : PImg) : PImg :=
  if pyUpper target_format = "JPEG" ∧
      (img.mode = PMode.RGBA ∨ img.mode = PMode.LA ∨ img.mode = PMode.P) then
    let img2 := if img.mode = PMode.P then toRGBA img else img
    if img2.mode = PMode.RGBA then pasteMaskWhite img2 else pasteOpaqueWhite img2
  else img

/-- Modelled from the spec: "flatten onto an opaque white background
(alpha-composited)" — convert to RGBA and alpha-composite every pixel over
white, using the same 8-bit blend as `paste`. -/
def specCompositeWhite (img : PImg) : PImg :=
  pasteMaskWhite (toRGBA img)

/-- `self.supported_formats` of `AIImageEnhancer`. -/
def supported_formats : List String := ["PNG", "JPEG", "JPG", "WEBP", "BMP"]

/-- Modelled from the spec: the Encoder contract's format set
`{PNG, JPEG, WEBP, BMP}`. -/
def specFourFormats : List String := ["PNG", "JPEG", "WEBP", "BMP"]

/-- Formats registered with PIL's `Image.save` (`SAVE` registry keys, an
excerpt); `save(format=...)` raises `KeyError` for an unregistered name —
in particular `"JPG"` is not a registered format name (only `"JPEG"` is). -/
def pil_save_formats : List String := ["PNG", "JPEG", "WEBP", "BMP", "TIFF", "GIF"]

/-- `AIImageEnhancer.convert_image_format`: the JPEG flattening prologue,
then `pil_image.save(buffer, format=target_format.upper(), ...)`.  Any
exception (an unregistered format name, or the codec rejecting the pixel
data, modelled by `codecRejects`) is caught and re-raised as
`Exception("Failed to convert image: ...")`.  The save kwargs
(quality/optimize/method) affect only the encoded bytes, which are not
modelled; the returned value is the image handed to the encoder. -/
def convert_image_format (img : PImg) (target_format : String) (quality : ℕ)
    (codecRejects : Bool) : Except String PImg :=
  if codecRejects ∨ pyUpper target_format ∉ pil_save_formats then
    .error "Failed to convert image"
  else
    .ok (jpegPrepImage target_format img)

/-- The format handling of the `/convert` route (`convert_image`, lines
644–654): reject when `target_format.upper()` is not in
`supported_formats` (a 400 error before any conversion or file write),
otherwise run `convert_image_format`; the temporary output file is written
only after `convert_image_format` returns, so an error means no partial
output exists. `quality` is threaded through unchanged. -/
def convert_image (target_format : String) (img : PImg) (quality : ℕ)
    (codecRejects : Bool) : Except String PImg :=
  if pyUpper target_format ∉ supported_formats then
    .error "Unsupported format"
  else
    convert_image_format img target_format quality codecRejects

/-- Modelled from the spec: the documented shape of a complete
`QualityMetrics` record — every numeric field present and inside its
stated bound, every boolean field present. -/
def specMetricsBounds (r : AnalysisRec) : Prop :=
  (∃ q, lookupField r .brightness = some (.num q) ∧ 0 ≤ q ∧ q ≤ 1) ∧
  (∃ q, lookupField r .contrast = some (.num q) ∧ 0 ≤ q ∧ q ≤ 1) ∧
  (∃ q, lookupField r .brightness_raw = some (.num q) ∧ 0 ≤ q ∧ q ≤ 255) ∧
  (∃ q, lookupField r .contrast_raw = some (.num q) ∧ 0 ≤ q ∧ q ≤ 255) ∧
  (∃ q, lookupField r .sharpness_score = some (.num q) ∧ 0 ≤ q ∧ q ≤ 1000) ∧
  (∃ q, lookupField r .noise_level = some (.num q) ∧ 0 ≤ q ∧ q ≤ 100) ∧
  (lookupField r .is_dark).isSome = true ∧
  (lookupField r .is_low_contrast).isSome = true ∧
  (lookupField r .needs_sharpening).isSome = true ∧
  (lookupField r .needs_noise_reduction).isSome = true

/-- Modelled from the spec: a full tile of the noise grid — origin on the
stride-`step` grid and the whole `step × step` square inside the plane. -/
def specNoiseTile (h w i j : ℕ) : Prop :=
  step h w ∣ i ∧ step h w ∣ j ∧ i + step h w ≤ h ∧ j + step h w ≤ w

/-- The uniformly black 100×100 RGB image of the spec's scenario. -/
def blackImg : Img := ⟨100, 100, 3, fun _ _ _ => 0⟩

instance (h w i j : ℕ) : Decidable (specNoiseTile h w i j) := by
  unfold specNoiseTile
  infer_instance

/-! ## Helper lemmas -/

theorem clampQ_bounds (lo hi x : ℚ) (h : lo ≤ hi) :
    lo ≤ clampQ lo hi x ∧ clampQ lo hi x ≤ hi :=
  ⟨le_max_left _ _, max_le h (min_le_left _ _)⟩

theorem sumdiv_bounds (n : ℕ) (S B : ℚ) (hS0 : 0 ≤ S) (hSB : S ≤ (n : ℚ) * B)
    (hB : 0 ≤ B) : 0 ≤ S / (n : ℚ) ∧ S / (n : ℚ) ≤ B := by
  constructor
  · exact div_nonneg hS0 (Nat.cast_nonneg n)
  · rcases Nat.eq_zero_or_pos n with h | h
    · simp [h]
      exact hB
    · rw [div_le_iff (by exact_mod_cast h)]
      calc S ≤ (n : ℚ) * B := hSB
        _ = B * (n : ℚ) := by ring

theorem chanMean_nonneg (img : Img) (c : ℕ) : 0 ≤ chanMean img c := by
  unfold chanMean
  positivity

theorem chanMean_le (img : Img) (hpx : ∀ y x c, img.px y x c ≤ 255) (c : ℕ) :
    chanMean img c ≤ 255 := by
  unfold chanMean
  refine (sumdiv_bounds (img.h * img.w) _ 255 (by positivity) ?_ (by norm_num)).2
  calc (∑ y ∈ Finset.range img.h, ∑ x ∈ Finset.range img.w, (img.px y x c : ℚ))
      ≤ ∑ y ∈ Finset.range img.h, ∑ x ∈ Finset.range img.w, (255 : ℚ) :=
        Finset.sum_le_sum fun y _ => Finset.sum_le_sum fun x _ => by
          exact_mod_cast hpx y x c
    _ = ((img.h * img.w : ℕ) : ℚ) * 255 := by
        simp [Finset.sum_const, Finset.card_range, mul_assoc]

theorem chanM2_le (img : Img) (hpx : ∀ y x c, img.px y x c ≤ 255) (c : ℕ) :
    chanM2 img c ≤ 65025 := by
  unfold chanM2
  refine (sumdiv_bounds (img.h * img.w) _ 65025 (by positivity) ?_ (by norm_num)).2
  calc (∑ y ∈ Finset.range img.h, ∑ x ∈ Finset.range img.w, (img.px y x c : ℚ) ^ 2)
      ≤ ∑ y ∈ Finset.range img.h, ∑ x ∈ Finset.range img.w, (65025 : ℚ) :=
        Finset.sum_le_sum fun y _ => Finset.sum_le_sum fun x _ => by
          have h1 : (img.px y x c : ℚ) ≤ 255 := by exact_mod_cast hpx y x c
          nlinarith [Nat.cast_nonneg (α := ℚ) (img.px y x c)]
    _ = ((img.h * img.w : ℕ) : ℚ) * 65025 := by
        simp [Finset.sum_const, Finset.card_range, mul_assoc]

theorem chanVar_le (img : Img) (hpx : ∀ y x c, img.px y x c ≤ 255) (c : ℕ) :
    chanVar img c ≤ 65025 := by
  unfold chanVar
  nlinarith [chanM2_le img hpx c, sq_nonneg (chanMean img c)]

theorem sd_bounds (img : Img) (sd : ℕ → ℚ)
    (hpx : ∀ y x c, img.px y x c ≤ 255)
    (hsd : ∀ c, 0 ≤ sd c ∧ sd c ^ 2 = chanVar img c) (c : ℕ) :
    0 ≤ sd c ∧ sd c ≤ 255 := by
  refine ⟨(hsd c).1, ?_⟩
  have h2 : sd c ^ 2 ≤ 65025 := (hsd c).2 ▸ chanVar_le img hpx c
  nlinarith [(hsd c).1]

theorem rawBrightness_bounds (img : Img) (hpx : ∀ y x c, img.px y x c ≤ 255) :
    0 ≤ rawBrightness img ∧ rawBrightness img ≤ 255 := by
  unfold rawBrightness
  split
  · norm_num
  · refine sumdiv_bounds img.nchan _ 255
      (Finset.sum_nonneg fun c _ => chanMean_nonneg img c) ?_ (by norm_num)
    calc (∑ c ∈ Finset.range img.nchan, chanMean img c)
        ≤ ∑ c ∈ Finset.range img.nchan, (255 : ℚ) :=
          Finset.sum_le_sum fun c _ => chanMean_le img hpx c
      _ = (img.nchan : ℚ) * 255 := by
          simp [Finset.sum_const, Finset.card_range, mul_assoc]

theorem rawContrast_bounds (img : Img) (sd : ℕ → ℚ)
    (hpx : ∀ y x c, img.px y x c ≤ 255)
    (hsd : ∀ c, 0 ≤ sd c ∧ sd c ^ 2 = chanVar img c) :
    0 ≤ rawContrast img sd ∧ rawContrast img sd ≤ 255 := by
  unfold rawContrast
  split
  · norm_num
  · refine sumdiv_bounds img.nchan _ 255
      (Finset.sum_nonneg fun c _ => (sd_bounds img sd hpx hsd c).1) ?_ (by norm_num)
    calc (∑ c ∈ Finset.range img.nchan, sd c)
        ≤ ∑ c ∈ Finset.range img.nchan, (255 : ℚ) :=
          Finset.sum_le_sum fun c _ => (sd_bounds img sd hpx hsd c).2
      _ = (img.nchan : ℚ) * 255 := by
          simp [Finset.sum_const, Finset.card_range, mul_assoc]

theorem analyze_stat_lookups (img : Img) (sd : ℕ → ℚ) (lv : ℚ)
    (ts : ℕ → ℕ → ℚ) (cvF : Bool) :
    lookupField (analyze_image_quality img sd lv ts cvF false) .brightness_raw =
      some (.num (rawBrightness img)) ∧
    lookupField (analyze_image_quality img sd lv ts cvF false) .is_dark =
      some (.bool (decide (rawBrightness img < 100))) ∧
    lookupField (analyze_image_quality img sd lv ts cvF false) .contrast_raw =
      some (.num (rawContrast img sd)) ∧
    lookupField (analyze_image_quality img sd lv ts cvF false) .is_low_contrast =
      some (.bool (decide (rawContrast img sd < 40))) := by
  cases cvF with
  | true => exact ⟨rfl, rfl, rfl, rfl⟩
  | false =>
    by_cases hreg : ((noiseTiles img.h img.w).map (fun p => ts p.1 p.2)) = ([] : List ℚ)
    · simp only [analyze_image_quality, hreg, if_true, if_false]
      exact ⟨rfl, rfl, rfl, rfl⟩
    · simp only [analyze_image_quality, hreg, if_true, if_false]
      exact ⟨rfl, rfl, rfl, rfl⟩

theorem mem_pyRange {n s i : ℕ} (hs : 0 < s) : i ∈ pyRange n s ↔ s ∣ i ∧ i < n := by
  unfold pyRange
  simp only [List.mem_map, List.mem_range]
  constructor
  · rintro ⟨k, hk, rfl⟩
    refine ⟨dvd_mul_left s k, ?_⟩
    rw [Nat.lt_iff_add_one_le, Nat.le_div_iff_mul_le hs] at hk
    have he : (k + 1) * s = k * s + s := by ring
    omega
  · rintro ⟨⟨k, rfl⟩, hlt⟩
    refine ⟨k, ?_, by ring⟩
    rw [Nat.lt_iff_add_one_le, Nat.le_div_iff_mul_le hs]
    have he : (k + 1) * s = s * k + s := by ring
    omega

theorem step_pos (h w : ℕ) : 0 < step h w :=
  lt_of_lt_of_le (by norm_num) (le_max_left 20 (min (h / 10) (w / 10)))

/-! ## Claim theorems -/

/-- Claim C4 (corrected): when analyze's top-level computation fails
entirely, it returns the safe-default record verbatim — brightness 0.5,
contrast 0.5, brightnessRaw 128, contrastRaw 50, sharpnessScore 50,
noiseLevel 10, needsSharpening true, isDark false, needsNoiseReduction
false, and isLowContrast TRUE (the claim's "all remaining boolean fields
false" fails on isLowContrast). -/
theorem analyze_failure_safe_defaults (img : Img) (sd : ℕ → ℚ) (lv : ℚ)
    (ts : ℕ → ℕ → ℚ) (cvF : Bool) :
    analyze_image_quality img sd lv ts cvF true =
      [(.brightness, .num 0.5),
       (.contrast, .num 0.5),
       (.brightness_raw, .num 128),
       (.contrast_raw, .num 50),
       (.is_dark, .bool false),
       (.is_low_contrast, .bool true),
       (.needs_sharpening, .bool true),
       (.needs_noise_reduction, .bool false),
       (.sharpness_score, .num 50),
       (.noise_level, .num 10)] := rfl

/-- Claim C4, counterexample to the claim as stated: on the total-failure
path the returned record maps `is_low_contrast` to `true`, not `false`. -/
theorem analyze_failure_safe_defaults_counterexample :
    lookupField (analyze_image_quality ⟨1, 1, 1, fun _ _ _ => 0⟩ (fun _ => 0) 0
        (fun _ _ => 0) false true) .is_low_contrast = some (.bool true) ∧
    lookupField (analyze_image_quality ⟨1, 1, 1, fun _ _ _ => 0⟩ (fun _ => 0) 0
        (fun _ _ => 0) false true) .is_low_contrast ≠ some (.bool false) := by
  constructor
  · rfl
  · decide

/-- Claim C5 (corrected): the tiles whose standard deviations enter the
noise estimate are exactly those whose origins are multiples of
`step h w` on both axes and satisfy the STRICT bounds `i + step < h` and
`j + step < w`; the full tile ending exactly at the image border (origin
`h - step` when `step ∣ h`) is excluded, contrary to the claim. -/
theorem noise_tile_grid (h w i j : ℕ) :
    (i, j) ∈ noiseTiles h w ↔
      step h w ∣ i ∧ step h w ∣ j ∧ i + step h w < h ∧ j + step h w < w := by
  have hs := step_pos h w
  unfold noiseTiles
  simp only [List.mem_filter, List.mem_flatMap, List.mem_map, Prod.mk.injEq,
    decide_eq_true_eq]
  constructor
  · rintro ⟨⟨a, ha, b, hb, rfl, rfl⟩, _⟩
    obtain ⟨hda, hla⟩ := (mem_pyRange hs).1 ha
    obtain ⟨hdb, hlb⟩ := (mem_pyRange hs).1 hb
    exact ⟨hda, hdb, by omega, by omega⟩
  · rintro ⟨hdi, hdj, hih, hjw⟩
    refine ⟨⟨i, (mem_pyRange hs).2 ⟨hdi, by omega⟩,
             j, (mem_pyRange hs).2 ⟨hdj, by omega⟩, rfl, rfl⟩, ?_⟩
    unfold regionSize
    have h1 : min (i + step h w) h = i + step h w := by omega
    have h2 : min (j + step h w) w = j + step h w := by omega
    have e1 : i + step h w - i = step h w := by omega
    have e2 : j + step h w - j = step h w := by omega
    rw [h1, h2, e1, e2]
    exact Nat.mul_pos hs hs

/-- Claim C5, counterexample to the claim as stated: for a 40×40 luminance
plane (`step = 20`), the origin `(0, 20)` is a full tile of the spec's
grid (`20 ∣ 0`, `20 ∣ 20`, `20 + 20 ≤ 40`) but the code's scan excludes
it — the loop runs only up to `h - step` exclusive. -/
theorem noise_tile_grid_counterexample :
    specNoiseTile 40 40 0 20 ∧ (0, 20) ∉ noiseTiles 40 40 ∧
      noiseTiles 40 40 = [(0, 0)] := by
  refine ⟨?_, ?_, ?_⟩ <;> decide

/-- Claim C6 (confirmed): on the success path, `is_dark` is exactly
`brightness_raw < 100` (so `brightness_raw = 100` yields `is_dark` false)
and `is_low_contrast` is exactly `contrast_raw < 40`. -/
theorem threshold_flags (img : Img) (sd : ℕ → ℚ) (lv : ℚ)
    (ts : ℕ → ℕ → ℚ) (cvF : Bool) :
    lookupField (analyze_image_quality img sd lv ts cvF false) .brightness_raw =
      some (.num (rawBrightness img)) ∧
    lookupField (analyze_image_quality img sd lv ts cvF false) .is_dark =
      some (.bool (decide (rawBrightness img < 100))) ∧
    lookupField (analyze_image_quality img sd lv ts cvF false) .contrast_raw =
      some (.num (rawContrast img sd)) ∧
    lookupField (analyze_image_quality img sd lv ts cvF false) .is_low_contrast =
      some (.bool (decide (rawContrast img sd < 40))) ∧
    (rawBrightness img = 100 →
      lookupField (analyze_image_quality img sd lv ts cvF false) .is_dark =
        some (.bool false)) := by
  obtain ⟨h1, h2, h3, h4⟩ := analyze_stat_lookups img sd lv ts cvF
  refine ⟨h1, h2, h3, h4, fun h100 => ?_⟩
  rw [h2, h100]
  norm_num

/-- Claim C6, witness: a 1×1 single-band image with sample value 100 has
`brightness_raw = 100` and `is_dark = false`. -/
theorem threshold_flags_witness :
    rawBrightness ⟨1, 1, 1, fun _ _ _ => 100⟩ = 100 ∧
    lookupField (analyze_image_quality ⟨1, 1, 1, fun _ _ _ => 100⟩ (fun _ => 0) 0
        (fun _ _ => 0) false false) .is_dark = some (.bool false) := by
  have h100 : rawBrightness ⟨1, 1, 1, fun _ _ _ => 100⟩ = 100 := by
    simp [rawBrightness, chanMean]
  exact ⟨h100,
    (threshold_flags ⟨1, 1, 1, fun _ _ _ => 100⟩ (fun _ => 0) 0 (fun _ _ => 0)
      false).2.2.2.2 h100⟩

/-- Claim C1 (confirmed): for every image (any size, including 1×1 and
single-color) and any outcome of the fallible measurement steps, analyze
returns a record whose numeric fields are present and inside their
documented bounds and whose boolean fields are present; the embedding is
total, matching "never raises". -/
theorem analyze_metrics_bounded (img : Img) (sd : ℕ → ℚ) (lapVar : ℚ)
    (tileSd : ℕ → ℕ → ℚ) (cvFail topFail : Bool)
    (hpx : ∀ y x c, img.px y x c ≤ 255)
    (hsd : ∀ c, 0 ≤ sd c ∧ sd c ^ 2 = chanVar img c) :
    specMetricsBounds (analyze_image_quality img sd lapVar tileSd cvFail topFail) := by
  have hbr := rawBrightness_bounds img hpx
  have hcr := rawContrast_bounds img sd hpx hsd
  have hb1 := clampQ_bounds 0 1 (rawBrightness img / 255) (by norm_num)
  have hc1 := clampQ_bounds 0 1 (rawContrast img sd / 255) (by norm_num)
  have hsh := clampQ_bounds 0 1000 lapVar (by norm_num)
  cases topFail with
  | true =>
    exact ⟨⟨0.5, rfl, by norm_num, by norm_num⟩, ⟨0.5, rfl, by norm_num, by norm_num⟩,
      ⟨128, rfl, by norm_num, by norm_num⟩, ⟨50, rfl, by norm_num, by norm_num⟩,
      ⟨50, rfl, by norm_num, by norm_num⟩, ⟨10, rfl, by norm_num, by norm_num⟩,
      rfl, rfl, rfl, rfl⟩
  | false =>
    cases cvFail with
    | true =>
      exact ⟨⟨_, rfl, hb1.1, hb1.2⟩, ⟨_, rfl, hc1.1, hc1.2⟩,
        ⟨_, rfl, hbr.1, hbr.2⟩, ⟨_, rfl, hcr.1, hcr.2⟩,
        ⟨50, rfl, by norm_num, by norm_num⟩, ⟨10, rfl, by norm_num, by norm_num⟩,
        rfl, rfl, rfl, rfl⟩
    | false =>
      by_cases hreg :
          ((noiseTiles img.h img.w).map (fun p => tileSd p.1 p.2)) = ([] : List ℚ)
      · simp only [analyze_image_quality, hreg, if_true, if_false]
        exact ⟨⟨_, rfl, hb1.1, hb1.2⟩, ⟨_, rfl, hc1.1, hc1.2⟩,
          ⟨_, rfl, hbr.1, hbr.2⟩, ⟨_, rfl, hcr.1, hcr.2⟩,
          ⟨_, rfl, hsh.1, hsh.2⟩, ⟨10, rfl, by norm_num, by norm_num⟩,
          rfl, rfl, rfl, rfl⟩
      · have hnz := clampQ_bounds 0 100
          (((noiseTiles img.h img.w).map (fun p => tileSd p.1 p.2)).sum /
            ((((noiseTiles img.h img.w).map (fun p => tileSd p.1 p.2)).length : ℕ) : ℚ))
          (by norm_num)
        simp only [analyze_image_quality, hreg, if_true, if_false]
        exact ⟨⟨_, rfl, hb1.1, hb1.2⟩, ⟨_, rfl, hc1.1, hc1.2⟩,
          ⟨_, rfl, hbr.1, hbr.2⟩, ⟨_, rfl, hcr.1, hcr.2⟩,
          ⟨_, rfl, hsh.1, hsh.2⟩, ⟨_, rfl, hnz.1, hnz.2⟩,
          rfl, rfl, rfl, rfl⟩

/-- Claim C1, witness: the 1×1 single-band black image, with its exact
(zero) band standard deviation, yields a complete in-bounds record. -/
theorem analyze_metrics_bounded_witness :
    (∀ y x c, (⟨1, 1, 1, fun _ _ _ => 0⟩ : Img).px y x c ≤ 255) ∧
    (∀ c : ℕ, (0 : ℚ) ≤ 0 ∧ (0 : ℚ) ^ 2 = chanVar ⟨1, 1, 1, fun _ _ _ => 0⟩ c) ∧
    specMetricsBounds (analyze_image_quality ⟨1, 1, 1, fun _ _ _ => 0⟩
      (fun _ => 0) 0 (fun _ _ => 0) false false) := by
  have h1 : ∀ y x c, (⟨1, 1, 1, fun _ _ _ => 0⟩ : Img).px y x c ≤ 255 :=
    fun _ _ _ => by norm_num
  have h2 : ∀ c : ℕ, (0 : ℚ) ≤ 0 ∧ (0 : ℚ) ^ 2 = chanVar ⟨1, 1, 1, fun _ _ _ => 0⟩ c := by
    intro c
    refine ⟨le_refl 0, ?_⟩
    simp [chanVar, chanM2, chanMean]
  exact ⟨h1, h2, analyze_metrics_bounded _ _ 0 _ false false h1 h2⟩

theorem enhance_result_split (img : Img) (sd : ℕ → ℚ) (lv : ℚ)
    (ts : ℕ → ℕ → ℚ) (cvF tF cF nF fb : Bool) (ls : List String)
    (r : AnalysisRec)
    (heq : auto_enhance_image img sd lv ts cvF tF false cF nF fb = .ok (ls, r)) :
    (ls = ["Default Quality Boost"] ∧
      ruleLabels (analyze_image_quality img sd lv ts cvF tF) cF nF = [] ∧
      r = analyze_image_quality img sd lv ts cvF tF) ∨
    (ls = ruleLabels (analyze_image_quality img sd lv ts cvF tF) cF nF ∧
      ls ≠ [] ∧ r = analyze_image_quality img sd lv ts cvF tF) := by
  have key : ∀ (l : List String) (A : AnalysisRec),
      (if l = [] then (Except.ok (["Default Quality Boost"], A) :
          Except String (List String × AnalysisRec)) else .ok (l, A)) = .ok (ls, r) →
      (ls = ["Default Quality Boost"] ∧ l = [] ∧ r = A) ∨
        (ls = l ∧ ls ≠ [] ∧ r = A) := by
    intro l A h
    split at h
    · rename_i hl
      injection h with h1
      injection h1 with h2 h3
      exact Or.inl ⟨h2.symm, hl, h3.symm⟩
    · rename_i hl
      injection h with h1
      injection h1 with h2 h3
      exact Or.inr ⟨h2.symm, h2 ▸ hl, h3.symm⟩
  exact key (ruleLabels (analyze_image_quality img sd lv ts cvF tF) cF nF)
    (analyze_image_quality img sd lv ts cvF tF) heq

/-- Claim C2 (confirmed): whenever enhance returns a result (rather than
raising), the applied-labels list is non-empty — via a rule label, the
default quality boost, or the fallback label. -/
theorem enhance_labels_nonempty (img : Img) (sd : ℕ → ℚ) (lv : ℚ)
    (ts : ℕ → ℕ → ℚ) (cvF tF bF cF nF fb : Bool) (ls : List String)
    (r : AnalysisRec)
    (heq : auto_enhance_image img sd lv ts cvF tF bF cF nF fb = .ok (ls, r)) :
    ls ≠ [] := by
  cases bF with
  | true =>
    cases fb with
    | true =>
      have h2 : (Except.ok (["Enhancement failed - returned original"], safe_analysis) :
          Except String (List String × AnalysisRec)) = .ok (ls, r) := heq
      injection h2 with h1
      injection h1 with h3 h4
      rw [← h3]
      simp
    | false =>
      have h2 : (Except.error "Failed to process image" :
          Except String (List String × AnalysisRec)) = .ok (ls, r) := heq
      exact absurd h2 (by simp)
  | false =>
    rcases enhance_result_split img sd lv ts cvF tF cF nF fb ls r heq with
      ⟨h1, -, -⟩ | ⟨-, h2, -⟩
    · rw [h1]
      simp
    · exact h2

/-- Claim C2, witness: a run whose body faults and whose fallback decode
succeeds returns exactly the single failure label, which is non-empty. -/
theorem enhance_labels_nonempty_witness :
    auto_enhance_image ⟨1, 1, 1, fun _ _ _ => 0⟩ (fun _ => 0) 0 (fun _ _ => 0)
        false false true false false true =
      .ok (["Enhancement failed - returned original"], safe_analysis) ∧
    (["Enhancement failed - returned original"] : List String) ≠ [] :=
  ⟨rfl, enhance_labels_nonempty ⟨1, 1, 1, fun _ _ _ => 0⟩ (fun _ => 0) 0
    (fun _ _ => 0) false false true false false true _ _ rfl⟩

/-- Claim C10 (confirmed): on a normal (non-fallback) run whose saturation
step succeeds, "Auto Color Enhancement" is among the labels and the
"Default Quality Boost" branch cannot fire; a "Default Quality Boost"
label can therefore appear only when the saturation step faulted. -/
theorem color_label_normal_path (img : Img) (sd : ℕ → ℚ) (lv : ℚ)
    (ts : ℕ → ℕ → ℚ) (cvF tF cF nF fb : Bool) (ls : List String)
    (r : AnalysisRec)
    (heq : auto_enhance_image img sd lv ts cvF tF false cF nF fb = .ok (ls, r)) :
    (cF = false → "Auto Color Enhancement" ∈ ls ∧ "Default Quality Boost" ∉ ls) ∧
    ("Default Quality Boost" ∈ ls → cF = true) := by
  have hc : cF = false →
      "Auto Color Enhancement" ∈
        ruleLabels (analyze_image_quality img sd lv ts cvF tF) cF nF := by
    rintro rfl
    unfold ruleLabels
    simp
  have hnd : "Default Quality Boost" ∉
      ruleLabels (analyze_image_quality img sd lv ts cvF tF) cF nF := by
    intro hmem
    unfold ruleLabels at hmem
    simp only [List.mem_append] at hmem
    rcases hmem with ((((h | h) | h) | h) | h) <;>
      (split at h <;> first | exact absurd h (by decide) | simp at h)
  rcases enhance_result_split img sd lv ts cvF tF cF nF fb ls r heq with
    ⟨h1, h2, -⟩ | ⟨h1, h2, -⟩
  · constructor
    · intro hcf
      have hm := hc hcf
      rw [h2] at hm
      simp at hm
    · intro _
      cases cF with
      | true => rfl
      | false =>
        have hm := hc rfl
        rw [h2] at hm
        simp at hm
  · subst h1
    constructor
    · intro hcf
      exact ⟨hc hcf, hnd⟩
    · intro hd
      exact absurd hd hnd

/-- Claim C10, witness: a normal run (over the safe-default analysis of a
failed top-level measurement) with a working saturation step includes the
color label and no default-boost label. -/
theorem color_label_normal_path_witness :
    auto_enhance_image ⟨1, 1, 1, fun _ _ _ => 0⟩ (fun _ => 0) 0 (fun _ _ => 0)
        false true false false false true =
      .ok (["Auto Contrast Enhancement", "Auto Sharpening", "Auto Color Enhancement"],
        analyze_image_quality ⟨1, 1, 1, fun _ _ _ => 0⟩ (fun _ => 0) 0
          (fun _ _ => 0) false true) ∧
    "Auto Color Enhancement" ∈
      (["Auto Contrast Enhancement", "Auto Sharpening", "Auto Color Enhancement"] :
        List String) ∧
    "Default Quality Boost" ∉
      (["Auto Contrast Enhancement", "Auto Sharpening", "Auto Color Enhancement"] :
        List String) := by
  have heq : auto_enhance_image ⟨1, 1, 1, fun _ _ _ => 0⟩ (fun _ => 0) 0
      (fun _ _ => 0) false true false false false true =
      .ok (["Auto Contrast Enhancement", "Auto Sharpening", "Auto Color Enhancement"],
        analyze_image_quality ⟨1, 1, 1, fun _ _ _ => 0⟩ (fun _ => 0) 0
          (fun _ _ => 0) false true) := by with_unfolding_all rfl
  refine ⟨heq, ?_, ?_⟩
  · exact ((color_label_normal_path ⟨1, 1, 1, fun _ _ _ => 0⟩ (fun _ => 0) 0
      (fun _ _ => 0) false true false false true _ _ heq).1 rfl).1
  · exact ((color_label_normal_path ⟨1, 1, 1, fun _ _ _ => 0⟩ (fun _ => 0) 0
      (fun _ _ => 0) false true false false true _ _ heq).1 rfl).2

/-- Claim C3 (corrected): every record produced by analyze carries all ten
documented fields, but the safe-default record attached to enhance's
unrecoverable-fault fallback result carries only the six numeric fields —
it omits isDark, isLowContrast, needsSharpening and needsNoiseReduction,
so that record IS partially populated, contrary to the claim. -/
theorem metrics_record_population :
    (∀ (img : Img) (sd : ℕ → ℚ) (lv : ℚ) (ts : ℕ → ℕ → ℚ) (cvF tF : Bool)
      (k : FieldKey),
      (lookupField (analyze_image_quality img sd lv ts cvF tF) k).isSome = true) ∧
    (∀ (img : Img) (sd : ℕ → ℚ) (lv : ℚ) (ts : ℕ → ℕ → ℚ) (cvF tF cF nF : Bool),
      auto_enhance_image img sd lv ts cvF tF true cF nF true =
        .ok (["Enhancement failed - returned original"], safe_analysis)) ∧
    (lookupField safe_analysis .brightness).isSome = true ∧
    (lookupField safe_analysis .contrast).isSome = true ∧
    (lookupField safe_analysis .brightness_raw).isSome = true ∧
    (lookupField safe_analysis .contrast_raw).isSome = true ∧
    (lookupField safe_analysis .sharpness_score).isSome = true ∧
    (lookupField safe_analysis .noise_level).isSome = true ∧
    lookupField safe_analysis .is_dark = none ∧
    lookupField safe_analysis .is_low_contrast = none ∧
    lookupField safe_analysis .needs_sharpening = none ∧
    lookupField safe_analysis .needs_noise_reduction = none := by
  refine ⟨?_, fun _ _ _ _ _ _ _ _ => rfl, rfl, rfl, rfl, rfl, rfl, rfl, rfl, rfl,
    rfl, rfl⟩
  intro img sd lv ts cvF tF k
  cases tF with
  | true => cases k <;> rfl
  | false =>
    cases cvF with
    | true => cases k <;> rfl
    | false =>
      by_cases hreg :
          ((noiseTiles img.h img.w).map (fun p => ts p.1 p.2)) = ([] : List ℚ)
      · simp only [analyze_image_quality, hreg, if_true, if_false]
        cases k <;> rfl
      · simp only [analyze_image_quality, hreg, if_true, if_false]
        cases k <;> rfl

/-- Claim C3, counterexample: enhance's fallback result carries a metrics
record that has no `is_dark` field at all. -/
theorem metrics_record_population_counterexample :
    auto_enhance_image ⟨2, 2, 3, fun _ _ _ => 7⟩ (fun _ => 0) 0 (fun _ _ => 0)
        false false true false false true =
      .ok (["Enhancement failed - returned original"], safe_analysis) ∧
    lookupField safe_analysis .is_dark = none :=
  ⟨rfl, rfl⟩

theorem blackImg_chanVar (c : ℕ) : chanVar blackImg c = 0 := by
  simp [chanVar, chanM2, chanMean, blackImg]

theorem blackImg_rawBrightness : rawBrightness blackImg = 0 := by
  simp [rawBrightness, blackImg, chanMean]

theorem blackImg_rawContrast (sd : ℕ → ℚ) (h0 : ∀ c, sd c = 0) :
    rawContrast blackImg sd = 0 := by
  simp [rawContrast, blackImg, h0]

/-- Claim C7 (confirmed): for the uniformly black 100×100 RGB image (all
samples 0, hence zero per-band standard deviations), analyze reports
`brightness_raw = 0` with `is_dark` and `contrast_raw = 0` with
`is_low_contrast`, and every result enhance returns on its normal path
contains both "Auto Brightness Boost" and "Auto Contrast Enhancement". -/
theorem black_image_scenario (sd : ℕ → ℚ) (lv : ℚ) (ts : ℕ → ℕ → ℚ)
    (cvF cF nF fb : Bool) (ls : List String) (r : AnalysisRec)
    (hsd : ∀ c, 0 ≤ sd c ∧ sd c ^ 2 = chanVar blackImg c)
    (heq : auto_enhance_image blackImg sd lv ts cvF false false cF nF fb =
      .ok (ls, r)) :
    lookupField r .brightness_raw = some (.num 0) ∧
    lookupField r .is_dark = some (.bool true) ∧
    lookupField r .contrast_raw = some (.num 0) ∧
    lookupField r .is_low_contrast = some (.bool true) ∧
    "Auto Brightness Boost" ∈ ls ∧ "Auto Contrast Enhancement" ∈ ls := by
  have h0 : ∀ c, sd c = 0 := fun c => by
    have h2 := (hsd c).2
    rw [blackImg_chanVar c] at h2
    exact sq_eq_zero_iff.mp h2
  have hbr := blackImg_rawBrightness
  have hcr := blackImg_rawContrast sd h0
  obtain ⟨e1, e2, e3, e4⟩ := analyze_stat_lookups blackImg sd lv ts cvF
  have d1 : decide (rawBrightness blackImg < 100) = true :=
    decide_eq_true (by rw [hbr]; norm_num)
  have d2 : decide (rawContrast blackImg sd < 40) = true :=
    decide_eq_true (by rw [hcr]; norm_num)
  have f1 : lookupField (analyze_image_quality blackImg sd lv ts cvF false)
      .brightness_raw = some (.num 0) := by rw [e1, hbr]
  have f2 : lookupField (analyze_image_quality blackImg sd lv ts cvF false)
      .is_dark = some (.bool true) := by rw [e2, d1]
  have f3 : lookupField (analyze_image_quality blackImg sd lv ts cvF false)
      .contrast_raw = some (.num 0) := by rw [e3, hcr]
  have f4 : lookupField (analyze_image_quality blackImg sd lv ts cvF false)
      .is_low_contrast = some (.bool true) := by rw [e4, d2]
  have hd : getB (analyze_image_quality blackImg sd lv ts cvF false) .is_dark =
      true := by simp [getB, f2]
  have hlc : getB (analyze_image_quality blackImg sd lv ts cvF false)
      .is_low_contrast = true := by simp [getB, f4]
  have hmem1 : "Auto Brightness Boost" ∈
      ruleLabels (analyze_image_quality blackImg sd lv ts cvF false) cF nF := by
    unfold ruleLabels
    simp [hd]
  have hmem2 : "Auto Contrast Enhancement" ∈
      ruleLabels (analyze_image_quality blackImg sd lv ts cvF false) cF nF := by
    unfold ruleLabels
    simp [hlc]
  rcases enhance_result_split blackImg sd lv ts cvF false cF nF fb ls r heq with
    ⟨-, h2, -⟩ | ⟨h1, -, h3⟩
  · rw [h2] at hmem1
    simp at hmem1
  · subst h1
    rw [h3]
    exact ⟨f1, f2, f3, f4, hmem1, hmem2⟩

set_option maxHeartbeats 4000000 in
set_option maxRecDepth 10000 in
/-- Claim C7, witness: a concrete run on the black image (zero band
standard deviations, faulting OpenCV block) evaluates end to end and both
labels appear. -/
theorem black_image_scenario_witness :
    (∀ c : ℕ, (0 : ℚ) ≤ 0 ∧ (0 : ℚ) ^ 2 = chanVar blackImg c) ∧
    "Auto Brightness Boost" ∈
      (["Auto Brightness Boost", "Auto Contrast Enhancement", "Auto Sharpening",
        "Auto Color Enhancement"] : List String) ∧
    "Auto Contrast Enhancement" ∈
      (["Auto Brightness Boost", "Auto Contrast Enhancement", "Auto Sharpening",
        "Auto Color Enhancement"] : List String) := by
  have hsd : ∀ c : ℕ, (0 : ℚ) ≤ 0 ∧ (0 : ℚ) ^ 2 = chanVar blackImg c :=
    fun c => ⟨le_refl 0, by rw [blackImg_chanVar]; norm_num⟩
  have heq : auto_enhance_image blackImg (fun _ => 0) 0 (fun _ _ => 0) true false
        false false false true =
      .ok (["Auto Brightness Boost", "Auto Contrast Enhancement", "Auto Sharpening",
            "Auto Color Enhancement"],
        [(.brightness, .num 0),
         (.contrast, .num 0),
         (.brightness_raw, .num 0),
         (.contrast_raw, .num 0),
         (.is_dark, .bool true),
         (.is_low_contrast, .bool true),
         (.needs_sharpening, .bool true),
         (.needs_noise_reduction, .bool false),
         (.sharpness_score, .num 50),
         (.noise_level, .num 10)]) := by
    with_unfolding_all rfl
  obtain ⟨-, -, -, -, m1, m2⟩ := black_image_scenario (fun _ => 0) 0 (fun _ _ => 0)
    true false false true _ _ hsd heq
  exact ⟨hsd, m1, m2⟩

/-- Claim C8 (corrected): for a JPEG target, RGBA and P images ARE
alpha-composited onto an opaque white background, and for all three
alpha/palette modes (RGBA, LA, P) the output carries no alpha channel (its
mode is RGB); a fully transparent RGBA image flattens to pure white.  But
an LA image is pasted WITHOUT its alpha band as mask (the code passes
`mask=None` unless the image is RGBA), so LA is not alpha-composited,
contrary to the claim's "for every image carrying an alpha channel". -/
theorem jpeg_flatten_modes (img : PImg) :
    ((img.mode = PMode.RGBA ∨ img.mode = PMode.P) →
      jpegPrepImage "JPEG" img = specCompositeWhite img) ∧
    ((img.mode = PMode.RGBA ∨ img.mode = PMode.LA ∨ img.mode = PMode.P) →
      (jpegPrepImage "JPEG" img).mode = PMode.RGB) ∧
    (img.mode = PMode.RGBA → (∀ y x, img.px y x 3 = 0) →
      ∀ y x c, (jpegPrepImage "JPEG" img).px y x c = 255) := by
  obtain ⟨h, w, m, px, pal⟩ := img
  refine ⟨?_, ?_, ?_⟩
  · rintro (rfl | rfl) <;> rfl
  · rintro (rfl | rfl | rfl) <;> rfl
  · rintro rfl halpha y x c
    have ha : px y x 3 = 0 := halpha y x
    show blend 255 (px y x c) (px y x 3) = 255
    rw [ha]
    simp [blend]

/-- Claim C8, counterexample: a 1×1 LA image with luma 0 and alpha 0.  The
spec's alpha-compositing onto white would give a white pixel (255), but
the code pastes the LA image opaquely (mask=None), giving a black pixel
(0), so flattening differs from alpha-compositing on LA inputs. -/
theorem jpeg_flatten_modes_counterexample :
    (jpegPrepImage "JPEG" ⟨1, 1, PMode.LA, fun _ _ _ => 0, fun _ _ => 0⟩).px 0 0 0
        = 0 ∧
    (specCompositeWhite ⟨1, 1, PMode.LA, fun _ _ _ => 0, fun _ _ => 0⟩).px 0 0 0
        = 255 ∧
    jpegPrepImage "JPEG" ⟨1, 1, PMode.LA, fun _ _ _ => 0, fun _ _ => 0⟩ ≠
      specCompositeWhite ⟨1, 1, PMode.LA, fun _ _ _ => 0, fun _ _ => 0⟩ := by
  have e1 : (jpegPrepImage "JPEG"
      ⟨1, 1, PMode.LA, fun _ _ _ => 0, fun _ _ => 0⟩).px 0 0 0 = 0 := rfl
  have e2 : (specCompositeWhite
      ⟨1, 1, PMode.LA, fun _ _ _ => 0, fun _ _ => 0⟩).px 0 0 0 = 255 := rfl
  refine ⟨e1, e2, fun hEq => ?_⟩
  rw [hEq] at e1
  rw [e1] at e2
  exact absurd e2 (by decide)

/-- Claim C8, witness: a fully transparent 1×1 RGBA image flattens to the
white background exactly. -/
theorem jpeg_flatten_modes_witness :
    ((⟨1, 1, PMode.RGBA, fun _ _ _ => 0, fun _ _ => 0⟩ : PImg).mode = PMode.RGBA) ∧
    (∀ y x, (⟨1, 1, PMode.RGBA, fun _ _ _ => 0, fun _ _ => 0⟩ : PImg).px y x 3 = 0) ∧
    (jpegPrepImage "JPEG" ⟨1, 1, PMode.RGBA, fun _ _ _ => 0, fun _ _ => 0⟩).px 0 0 0
      = 255 :=
  ⟨rfl, fun _ _ => rfl,
    (jpeg_flatten_modes ⟨1, 1, PMode.RGBA, fun _ _ _ => 0, fun _ _ => 0⟩).2.2 rfl
      (fun _ _ => rfl) 0 0 0⟩

/-- Claim C9 (confirmed): for every format string whose upper-cased form is
outside {PNG, JPEG, WEBP, BMP}, the conversion pipeline fails with an
error and never reaches the output-writing step (either the route's
supported-format check rejects it, or — for "JPG", which the route accepts
— PIL's save registry has no such key and `convert_image_format` raises
its wrapped failure); it likewise fails whenever the codec rejects the
pixel data. -/
theorem unsupported_format_rejected (fmt : String) (img : PImg) (q : ℕ)
    (cr : Bool) :
    (pyUpper fmt ∉ specFourFormats →
      ∃ e, convert_image fmt img q cr = .error e) ∧
    (cr = true → ∃ e, convert_image fmt img q cr = .error e) := by
  constructor
  · intro hout
    by_cases hin : pyUpper fmt ∈ supported_formats
    · have hjpg : pyUpper fmt = "JPG" := by
        simp only [supported_formats, List.mem_cons, List.not_mem_nil, or_false] at hin
        simp only [specFourFormats, List.mem_cons, List.not_mem_nil, or_false,
          not_or] at hout
        rcases hin with h | h | h | h | h <;> simp_all
      refine ⟨"Failed to convert image", ?_⟩
      unfold convert_image convert_image_format
      rw [if_neg (fun hc => hc hin), if_pos (Or.inr (by rw [hjpg]; decide))]
    · exact ⟨"Unsupported format", by unfold convert_image; rw [if_pos hin]⟩
  · intro hcr
    by_cases hin : pyUpper fmt ∈ supported_formats
    · refine ⟨"Failed to convert image", ?_⟩
      unfold convert_image convert_image_format
      rw [if_neg (fun hc => hc hin), if_pos (Or.inl hcr)]
    · exact ⟨"Unsupported format", by unfold convert_image; rw [if_pos hin]⟩

/-- Claim C9, witness: requesting "TIFF" is rejected with an error, and a
codec rejection on a supported format ("PNG") also yields an error. -/
theorem unsupported_format_rejected_witness :
    (pyUpper "TIFF" ∉ specFourFormats) ∧
    (∃ e, convert_image "TIFF" ⟨1, 1, PMode.RGB, fun _ _ _ => 0, fun _ _ => 0⟩
      95 false = .error e) ∧
    (∃ e, convert_image "PNG" ⟨1, 1, PMode.RGB, fun _ _ _ => 0, fun _ _ => 0⟩
      95 true = .error e) := by
  refine ⟨by decide, ?_, ?_⟩
  · exact (unsupported_format_rejected "TIFF"
      ⟨1, 1, PMode.RGB, fun _ _ _ => 0, fun _ _ => 0⟩ 95 false).1 (by decide)
  · exact (unsupported_format_rejected "PNG"
      ⟨1, 1, PMode.RGB, fun _ _ _ => 0, fun _ _ => 0⟩ 95 true).2 rfl
